import Mathlib

/-!
Shallow embedding of the `wide_deep` repository's two model scripts,
`src/models/deep_fm.py` and `src/models/linear.py`.

The scripts build TensorFlow estimator graphs.  We embed the graph
construction performed by `model_fn` as a pure function over exact
rationals: framework-supplied primitives (the linear model, embedding
lookups, dense layers, dropout layers, the binary prediction / loss /
metric helpers and the train op) are opaque parameters gathered in a
`FrameworkEnv`; the wiring between them — validation, the logit
accumulation, the factorization-machine arithmetic, the dropout
condition and the per-mode `EstimatorSpec` — is translated line by line
from the source.  The `train_main` epoch loops are embedded as traces of
the external calls they make, with an environment deciding which
framework calls raise.
-/

namespace WideDeep

/-- Estimator modes, mirroring `tf.estimator.ModeKeys`. -/
inductive Mode where
  | TRAIN
  | EVAL
  | PREDICT
deriving DecidableEq, Repr

/-- The `params` dict read at the top of `model_fn` (deep_fm.py lines
17-30), with the `params.get` defaults from the source. -/
structure Params where
  categorical_columns : List String := []
  numeric_columns : List String := []
  use_linear : Bool := true
  use_mf : Bool := true
  use_dnn : Bool := true
  embedding_size : Nat := 16
  hidden_units : List Nat := [64, 64, 64]
  dropout : ℚ := 0
  optimizer : String := "Adam"
  learning_rate : ℚ := 1 / 1000
deriving Repr

/-- Framework-supplied primitives used by `model_fn`, modelled as opaque
data for one input example: the linear model's output logit, the
flattened categorical embedding inputs, the flattened numeric embedding
inputs, the dense hidden layers (index, size, input), the dropout layers
(index, rate, input), the final dense logit layer, and the helpers
imported from `src.tf_utils` (`get_binary_predictions`,
`get_binary_losses` split into its "loss" and "average_loss" entries,
`get_binary_metric_ops`, `get_train_op`). -/
structure FrameworkEnv where
  linear_model : ℚ
  embedding_inputs : List ℚ
  numeric_embedding_inputs : List ℚ
  dense : Nat → Nat → List ℚ → List ℚ
  dropout_layer : Nat → ℚ → List ℚ → List ℚ
  dense_logit : List ℚ → ℚ
  binary_predictions : ℚ → ℚ
  binary_loss : ℚ → ℚ → ℚ
  binary_average_loss : ℚ → ℚ → ℚ
  binary_metric_ops : ℚ → ℚ → ℚ → List (String × ℚ)
  train_op : ℚ → Nat

/-- The `tf.estimator.EstimatorSpec` constructor calls in `model_fn`:
only the keyword arguments actually passed in each branch are filled,
the rest stay `none`. -/
structure EstimatorSpec where
  mode : Mode
  predictions : Option ℚ := none
  loss : Option ℚ := none
  eval_metric_ops : Option (List (String × ℚ)) := none
  train_op : Option Nat := none
deriving DecidableEq, Repr

/-- Sum of `f 0, …, f (k-1)`; used to express reductions over the
embedding dimension. -/
def rangeSum (k : Nat) (f : Nat → ℚ) : ℚ :=
  ((List.range k).map f).sum

/-- Row-major `tf.reshape` of a flat list into `d` rows of length `k`
(deep_fm.py line 83, `tf.reshape(input_layer, [-1, d, embedding_size])`
for a single example). -/
def reshapeMat (d k : Nat) (l : List ℚ) : List (List ℚ) :=
  (List.range d).map fun i => (List.range k).map fun j => l.getD (i * k + j) 0

/-- Column `j` summed over the field axis:
`tf.reduce_sum(embedding_mat, 1)` at embedding coordinate `j`. -/
def colSum (v : List (List ℚ)) (j : Nat) : ℚ :=
  (v.map fun row => row.getD j 0).sum

/-- Column `j` of the squared entries summed over the field axis:
`tf.reduce_sum(tf.square(embedding_mat), 1)` at coordinate `j`. -/
def colSqSum (v : List (List ℚ)) (j : Nat) : ℚ :=
  (v.map fun row => (row.getD j 0) ^ 2).sum

/-- The mf component's logit (deep_fm.py lines 85-91):
`0.5 * tf.reduce_sum(sum_square - square_sum, 1)` where
`sum_square = tf.square(tf.reduce_sum(embedding_mat, 1))` and
`square_sum = tf.reduce_sum(tf.square(embedding_mat), 1)`. -/
def mf_logit (v : List (List ℚ)) (k : Nat) : ℚ :=
  (1 / 2) * rangeSum k fun j => (colSum v j) ^ 2 - colSqSum v j

/-- The `input_layer` variable of deep_fm.py lines 52-78: categorical
embedding inputs when only categorical columns exist, numeric embedding
inputs when only numeric columns exist, and their concatenation when
both exist. -/
def input_layer (env : FrameworkEnv) (categorical_dim numeric_dim : Nat) : List ℚ :=
  if 0 < numeric_dim then
    if 0 < categorical_dim then env.embedding_inputs ++ env.numeric_embedding_inputs
    else env.numeric_embedding_inputs
  else env.embedding_inputs

/-- The hidden-layer loop of deep_fm.py lines 102-109 over the
enumerated `hidden_units`: each step applies `tf.layers.dense` and then,
when `dropout > 0 and mode == tf.estimator.ModeKeys.TRAIN`, a
`tf.layers.dropout` layer. -/
def dnn_hidden (env : FrameworkEnv) (dropout : ℚ) (mode : Mode) :
    List (Nat × Nat) → List ℚ → List ℚ
  | [], net => net
  | (i, h) :: rest, net =>
    let net := env.dense i h net
    let net := if 0 < dropout ∧ mode = Mode.TRAIN then env.dropout_layer i dropout net else net
    dnn_hidden env dropout mode rest net

/-- The hidden-layer loop with the dropout branch never taken. -/
def dnn_hidden_no_dropout (env : FrameworkEnv) :
    List (Nat × Nat) → List ℚ → List ℚ
  | [], net => net
  | (i, h) :: rest, net => dnn_hidden_no_dropout env rest (env.dense i h net)

/-- The hidden-layer loop with a dropout layer inserted after every
hidden layer. -/
def dnn_hidden_all_dropout (env : FrameworkEnv) (dropout : ℚ) :
    List (Nat × Nat) → List ℚ → List ℚ
  | [], net => net
  | (i, h) :: rest, net =>
    dnn_hidden_all_dropout env dropout rest (env.dropout_layer i dropout (env.dense i h net))

/-- The dnn component's logit (deep_fm.py lines 97-115): the hidden
stack applied to the input layer, followed by the final one-unit dense
layer. -/
def dnn_logit (env : FrameworkEnv) (params : Params) (mode : Mode) (il : List ℚ) : ℚ :=
  env.dense_logit (dnn_hidden env params.dropout mode params.hidden_units.enum il)

/-- The linear component's logit:
`tf.feature_column.linear_model(features, …)` (deep_fm.py line 43). -/
def linear_logit (env : FrameworkEnv) : ℚ :=
  env.linear_model

/-- The mf component's logit as computed inside `model_fn`: the flat
input layer reshaped to a `(d, embedding_size)` matrix and fed through
the factorization-machine arithmetic (deep_fm.py lines 80-94). -/
def mf_component_logit (env : FrameworkEnv) (params : Params) : ℚ :=
  let categorical_dim := params.categorical_columns.length
  let numeric_dim := params.numeric_columns.length
  mf_logit
    (reshapeMat (categorical_dim + numeric_dim) params.embedding_size
      (input_layer env categorical_dim numeric_dim))
    params.embedding_size

/-- The dnn component's logit as computed inside `model_fn`. -/
def dnn_component_logit (env : FrameworkEnv) (params : Params) (mode : Mode) : ℚ :=
  dnn_logit env params mode
    (input_layer env params.categorical_columns.length params.numeric_columns.length)

/-- The logit accumulation of deep_fm.py lines 40-116: `logits = 0`,
then `logits += linear_logit` when `use_linear`, `logits += mf_logit`
when `use_mf`, `logits += dnn_logit` when `use_dnn`. -/
def deepFmLogits (env : FrameworkEnv) (mode : Mode) (params : Params) : ℚ :=
  let logits : ℚ := 0
  let logits := if params.use_linear then logits + linear_logit env else logits
  let logits := if params.use_mf then logits + mf_component_logit env params else logits
  let logits := if params.use_dnn then logits + dnn_component_logit env params mode else logits
  logits

/-- Shallow embedding of `model_fn` (deep_fm.py lines 15-136): the two
validation checks, the logit accumulation, and the per-mode
`EstimatorSpec` construction.  `raise ValueError` becomes
`Except.error` carrying the message. -/
def model_fn (env : FrameworkEnv) (labels : ℚ) (mode : Mode) (params : Params) :
    Except String EstimatorSpec :=
  let categorical_dim := params.categorical_columns.length
  let numeric_dim := params.numeric_columns.length
  if categorical_dim + numeric_dim = 0 then
    Except.error "At least 1 feature column of categorical_columns or numeric_columns must be specified."
  else if ¬(params.use_linear || params.use_mf || params.use_dnn) then
    Except.error "At least 1 of linear, mf or dnn component must be used."
  else
    let logits := deepFmLogits env mode params
    let predictions := env.binary_predictions logits
    match mode with
    | Mode.PREDICT =>
      Except.ok { mode := Mode.PREDICT, predictions := some predictions }
    | Mode.EVAL =>
      let loss := env.binary_loss labels predictions
      let metric_ops := env.binary_metric_ops labels predictions loss
      Except.ok { mode := Mode.EVAL, loss := some loss, eval_metric_ops := some metric_ops }
    | Mode.TRAIN =>
      let loss := env.binary_loss labels predictions
      Except.ok { mode := Mode.TRAIN, loss := some loss, train_op := some (env.train_op loss) }

/-- Command-line arguments of `deep_fm.py` (lines 177-202), with the
literal argparse defaults.  `action="store_true"` flags default to
`false`. -/
structure DeepFmArgs where
  train_csv : String
  test_csv : String
  model_dir : String := "checkpoints/deep_fm"
  exclude_linear : Bool := false
  exclude_mf : Bool := false
  exclude_dnn : Bool := false
  embedding_size : Nat := 16
  hidden_units : List Nat := [64, 64, 64]
  dropout : ℚ := 1 / 10
  batch_size : Nat := 32
  num_epochs : Nat := 16
  log_path : String := "main.log"
deriving Repr

/-- Command-line arguments of `linear.py` (lines 47-60). -/
structure LinearArgs where
  train_csv : String
  test_csv : String
  model_dir : String := "checkpoints/linear"
  batch_size : Nat := 32
  num_epochs : Nat := 16
  log_path : String := "main.log"
deriving Repr

/-- The flag names registered on `deep_fm.py`'s ArgumentParser, in
source order. -/
def deepFmCliFlags : List String :=
  ["--train-csv", "--test-csv", "--model-dir",
   "--exclude-linear", "--exclude-mf", "--exclude-dnn",
   "--embedding-size", "--hidden-units", "--dropout",
   "--batch-size", "--num-epochs", "--log-path"]

/-- The flag names registered on `linear.py`'s ArgumentParser, in
source order. -/
def linearCliFlags : List String :=
  ["--train-csv", "--test-csv", "--model-dir",
   "--batch-size", "--num-epochs", "--log-path"]

/-- The `params` dict built in `deep_fm.py`'s `train_main` (lines
150-158): the categorical columns from the data, `use_* = not
exclude_*`, and the size flags forwarded unchanged.  Keys absent from
the dict (`numeric_columns`, `optimizer`, …) take the `params.get`
defaults of `Params`. -/
def deepFmTrainParams (args : DeepFmArgs) (categorical_columns : List String) : Params :=
  { categorical_columns := categorical_columns
    use_linear := !args.exclude_linear
    use_mf := !args.exclude_mf
    use_dnn := !args.exclude_dnn
    embedding_size := args.embedding_size
    hidden_units := args.hidden_units
    dropout := args.dropout }

/-- Modelled from the spec: `src.tf_utils.tf_csv_dataset` is not under
`src/`; per the spec the evaluate pass reads the test CSV "without
shuffling", so its `shuffle` parameter defaults to `False` when the
call site omits it (both `model.evaluate` input functions omit it). -/
def tfCsvDatasetShuffleDefault : Bool := false

/-- External calls made by `train_main`, tagged with the epoch index for
the per-epoch calls: the `shutil.rmtree` cleanup, the
`tf.estimator` model construction, `model.train`, `model.evaluate`
(each carrying csv path, shuffle flag and batch size) and the
`logger.info` call on the epoch's evaluation results. -/
inductive TEvent where
  | rmtreeDir : String → TEvent
  | estimatorCreate : String → TEvent
  | trainCall : Nat → String → Bool → Nat → TEvent
  | evalCall : Nat → String → Bool → Nat → TEvent
  | logEpoch : Nat → TEvent
deriving DecidableEq, Repr

/-- Which framework calls raise: `trainFails n` (resp. `evalFails n`)
says the `model.train` (resp. `model.evaluate`) call of epoch `n`
raises an exception. -/
structure FitEnv where
  trainFails : Nat → Bool
  evalFails : Nat → Bool

/-- An environment in which no framework call raises. -/
def noFailEnv : FitEnv :=
  { trainFails := fun _ => false, evalFails := fun _ => false }

/-- The `for n in range(args.num_epochs)` loop shared by both scripts
(deep_fm.py lines 162-173, linear.py lines 29-43), as the trace of
calls it makes starting at epoch `n` with `fuel` epochs left: each
iteration attempts `model.train` on the train csv with `shuffle=True`,
then `model.evaluate` on the test csv (shuffle left at its default),
then logs the epoch's results; an exception aborts the loop right
after the raising call. -/
def epochLoop (env : FitEnv) (trainCsv testCsv : String) (batch : Nat) :
    Nat → Nat → List TEvent
  | _, 0 => []
  | n, Nat.succ fuel =>
    TEvent.trainCall n trainCsv true batch ::
      (if env.trainFails n then [] else
        TEvent.evalCall n testCsv tfCsvDatasetShuffleDefault batch ::
          (if env.evalFails n then [] else
            TEvent.logEpoch n :: epochLoop env trainCsv testCsv batch (n + 1) fuel))

/-- The call trace of `deep_fm.py`'s `train_main` (lines 139-173):
cleanup of the model directory, estimator construction, then the epoch
loop. -/
def deepFmTrainMainTrace (env : FitEnv) (args : DeepFmArgs) : List TEvent :=
  TEvent.rmtreeDir args.model_dir ::
    TEvent.estimatorCreate args.model_dir ::
      epochLoop env args.train_csv args.test_csv args.batch_size 0 args.num_epochs

/-- The call trace of `linear.py`'s `train_main` (lines 13-43). -/
def linearTrainMainTrace (env : FitEnv) (args : LinearArgs) : List TEvent :=
  TEvent.rmtreeDir args.model_dir ::
    TEvent.estimatorCreate args.model_dir ::
      epochLoop env args.train_csv args.test_csv args.batch_size 0 args.num_epochs

/-- Per-epoch call pattern of a successful epoch `n`. -/
def epochBody (trainCsv testCsv : String) (batch : Nat) (n : Nat) : List TEvent :=
  [TEvent.trainCall n trainCsv true batch,
   TEvent.evalCall n testCsv tfCsvDatasetShuffleDefault batch,
   TEvent.logEpoch n]

/-- A filesystem as a predicate on paths, a path being a list of
components. -/
def FS : Type := List String → Bool

/-- `shutil.rmtree(dir, ignore_errors=True)`: every path at or below
`dir` is removed, every other path is untouched, and the call never
raises (it is a total function, also when `dir` does not exist). -/
def rmtreeFS (dir : List String) (fs : FS) : FS :=
  fun p => if dir.isPrefixOf p then false else fs p

/-- The `try/except` entry point of `deep_fm.py` (lines 209-213): on an
exception from `train_main` it calls `logger.exception(e)` and then
`raise e`; a normal return is passed through with nothing logged. -/
def deepFmEntry (run : Except String Unit) : List String × Except String Unit :=
  match run with
  | Except.ok u => ([], Except.ok u)
  | Except.error e => ([e], Except.error e)

/-- The `try/except` entry point of `linear.py` (lines 67-71), identical
in shape. -/
def linearEntry (run : Except String Unit) : List String × Except String Unit :=
  match run with
  | Except.ok u => ([], Except.ok u)
  | Except.error e => ([e], Except.error e)

/-- Inner product of two embedding rows. -/
def dotProd (a b : List ℚ) : ℚ :=
  (List.zipWith (fun x y => x * y) a b).sum

/-- Inner product of the first `k` coordinates of two rows, missing
entries reading as `0`. -/
def dotCoords (k : Nat) (a b : List ℚ) : ℚ :=
  rangeSum k fun j => a.getD j 0 * b.getD j 0

/-- Sum over all unordered pairs of distinct rows `i < j` of the
coordinate-wise inner product `dotCoords`. -/
def pairwiseDotCoords (k : Nat) : List (List ℚ) → ℚ
  | [] => 0
  | r :: rest => (rest.map fun s => dotCoords k r s).sum + pairwiseDotCoords k rest

/-- The factorization-machine second-order term: the sum over all
unordered pairs of distinct rows `i < j` of the inner product of rows
`v_i` and `v_j`. -/
def pairwiseDot : List (List ℚ) → ℚ
  | [] => 0
  | r :: rest => (rest.map fun s => dotProd r s).sum + pairwiseDot rest

theorem rangeSum_succ (n : Nat) (f : Nat → ℚ) :
    rangeSum (n + 1) f = f 0 + rangeSum n fun j => f (j + 1) := by
  rw [rangeSum, List.range_succ_eq_map, List.map_cons, List.sum_cons, List.map_map]
  rfl

theorem rangeSum_zero_fn (k : Nat) : rangeSum k (fun _ => (0 : ℚ)) = 0 := by
  induction k with
  | zero => rfl
  | succ n ih => rw [rangeSum_succ]; simpa using ih

theorem rangeSum_congr {k : Nat} {f g : Nat → ℚ} (h : ∀ j, f j = g j) :
    rangeSum k f = rangeSum k g := by
  rw [funext h]

theorem rangeSum_add (k : Nat) (f g : Nat → ℚ) :
    rangeSum k (fun j => f j + g j) = rangeSum k f + rangeSum k g := by
  induction k generalizing f g with
  | zero => simp [rangeSum]
  | succ n ih => rw [rangeSum_succ, rangeSum_succ n f, rangeSum_succ n g, ih]; ring

theorem rangeSum_mul_left (k : Nat) (c : ℚ) (f : Nat → ℚ) :
    rangeSum k (fun j => c * f j) = c * rangeSum k f := by
  induction k generalizing f with
  | zero => simp [rangeSum]
  | succ n ih => rw [rangeSum_succ, rangeSum_succ n f, ih]; ring

theorem rangeSum_mul_colSum (k : Nat) (r : List ℚ) (rest : List (List ℚ)) :
    (rangeSum k fun j => r.getD j 0 * colSum rest j) =
      (rest.map fun s => dotCoords k r s).sum := by
  induction rest with
  | nil =>
    have h : ∀ j, r.getD j 0 * colSum ([] : List (List ℚ)) j = 0 := by
      intro j; simp [colSum]
    rw [rangeSum_congr h, rangeSum_zero_fn]
    simp
  | cons x rest ih =>
    have h : ∀ j, r.getD j 0 * colSum (x :: rest) j =
        r.getD j 0 * x.getD j 0 + r.getD j 0 * colSum rest j := by
      intro j; simp [colSum]; ring
    rw [rangeSum_congr h, rangeSum_add, ih]
    simp [dotCoords]

theorem fm_second_order (k : Nat) (v : List (List ℚ)) :
    (rangeSum k fun j => (colSum v j) ^ 2 - colSqSum v j) = 2 * pairwiseDotCoords k v := by
  induction v with
  | nil =>
    have h : ∀ j, (colSum ([] : List (List ℚ)) j) ^ 2 - colSqSum [] j = 0 := by
      intro j; simp [colSum, colSqSum]
    rw [rangeSum_congr h, rangeSum_zero_fn]
    simp [pairwiseDotCoords]
  | cons r rest ih =>
    have h : ∀ j, (colSum (r :: rest) j) ^ 2 - colSqSum (r :: rest) j =
        2 * (r.getD j 0 * colSum rest j) +
          ((colSum rest j) ^ 2 - colSqSum rest j) := by
      intro j; simp [colSum, colSqSum]; ring
    rw [rangeSum_congr h, rangeSum_add, rangeSum_mul_left, rangeSum_mul_colSum, ih,
      pairwiseDotCoords]
    ring

theorem dotCoords_eq_dotProd (a b : List ℚ) (k : Nat) (ha : a.length = k)
    (hb : b.length = k) : dotCoords k a b = dotProd a b := by
  induction a generalizing b k with
  | nil =>
    subst ha
    cases b with
    | nil => simp [dotCoords, dotProd, rangeSum]
    | cons y b => simp at hb
  | cons x a ih =>
    subst ha
    cases b with
    | nil => simp at hb
    | cons y b =>
      simp only [List.length_cons, Nat.succ.injEq] at hb
      rw [dotCoords, List.length_cons, rangeSum_succ]
      have h : ∀ j, (x :: a).getD (j + 1) 0 * (y :: b).getD (j + 1) 0 =
          a.getD j 0 * b.getD j 0 := by
        intro j; simp
      rw [rangeSum_congr h]
      have hrec : (rangeSum a.length fun j => a.getD j 0 * b.getD j 0) = dotProd a b :=
        ih b a.length rfl hb
      rw [hrec]
      simp [dotProd]

theorem pairwiseDotCoords_eq_pairwiseDot (k : Nat) (v : List (List ℚ))
    (h : ∀ r ∈ v, r.length = k) : pairwiseDotCoords k v = pairwiseDot v := by
  induction v with
  | nil => rfl
  | cons r rest ih =>
    rw [pairwiseDotCoords, pairwiseDot]
    have hr : r.length = k := h r (by simp)
    have hmap : (rest.map fun s => dotCoords k r s) = rest.map fun s => dotProd r s :=
      List.map_congr_left fun s hs => dotCoords_eq_dotProd r s k hr (h s (by simp [hs]))
    rw [hmap, ih fun s hs => h s (by simp [hs])]

/-- C4: for every embedding matrix with rows of length `k`, the mf
component's computation `0.5 * Σ_j ((Σ_i v_ij)^2 - Σ_i v_ij^2)` equals
the factorization-machine second-order term `Σ_{i<j} ⟨v_i, v_j⟩`. -/
theorem mf_logit_eq_pairwise_inner (v : List (List ℚ)) (k : Nat)
    (h : ∀ r ∈ v, r.length = k) : mf_logit v k = pairwiseDot v := by
  rw [mf_logit, fm_second_order, pairwiseDotCoords_eq_pairwiseDot k v h]
  ring

/-- Witness for C4 at the concrete 3-by-2 matrix
`[[1,2],[3,4],[5,6]]`. -/
theorem mf_logit_eq_pairwise_inner_witness :
    (∀ r ∈ [[(1 : ℚ), 2], [3, 4], [5, 6]], r.length = 2) ∧
      mf_logit [[(1 : ℚ), 2], [3, 4], [5, 6]] 2 =
        pairwiseDot [[(1 : ℚ), 2], [3, 4], [5, 6]] :=
  ⟨by decide, mf_logit_eq_pairwise_inner [[(1 : ℚ), 2], [3, 4], [5, 6]] 2 (by decide)⟩

/-- A concrete framework environment used to exercise the embedding on
closed inputs. -/
def sampleEnv : FrameworkEnv where
  linear_model := 3
  embedding_inputs := [1, 2]
  numeric_embedding_inputs := []
  dense := fun _ _ net => net
  dropout_layer := fun _ _ net => net.map fun x => x / 2
  dense_logit := fun net => net.sum
  binary_predictions := fun l => l
  binary_loss := fun y p => (p - y) ^ 2
  binary_average_loss := fun y p => (p - y) ^ 2
  binary_metric_ops := fun _ _ l => [("loss", l)]
  train_op := fun _ => 7

/-- A concrete parameter setting with one categorical column. -/
def sampleParams : Params :=
  { categorical_columns := ["user"], embedding_size := 2 }

/-- C1: for every parameter setting that passes validation, the final
logit is the sum of the linear logit (iff `use_linear`), the mf logit
(iff `use_mf`) and the dnn logit (iff `use_dnn`), and in PREDICT mode
`model_fn` feeds exactly this summed logit into the binary-prediction
helper of the single binary classifier. -/
theorem deepFm_logits_sum_of_components (env : FrameworkEnv) (labels : ℚ) (mode : Mode)
    (params : Params)
    (h1 : 0 < params.categorical_columns.length + params.numeric_columns.length)
    (h2 : params.use_linear ∨ params.use_mf ∨ params.use_dnn) :
    deepFmLogits env mode params =
      (if params.use_linear then linear_logit env else 0) +
      (if params.use_mf then mf_component_logit env params else 0) +
      (if params.use_dnn then dnn_component_logit env params mode else 0) ∧
    model_fn env labels Mode.PREDICT params =
      Except.ok { mode := Mode.PREDICT,
                  predictions :=
                    some (env.binary_predictions
                      ((if params.use_linear then linear_logit env else 0) +
                       (if params.use_mf then mf_component_logit env params else 0) +
                       (if params.use_dnn then dnn_component_logit env params Mode.PREDICT else 0))) } := by
  have hsum : ∀ m : Mode, deepFmLogits env m params =
      (if params.use_linear then linear_logit env else 0) +
      (if params.use_mf then mf_component_logit env params else 0) +
      (if params.use_dnn then dnn_component_logit env params m else 0) := by
    intro m
    cases hl : params.use_linear <;> cases hm : params.use_mf <;>
      cases hd : params.use_dnn <;>
        simp [deepFmLogits, hl, hm, hd, add_assoc, add_comm, add_left_comm]
  refine ⟨hsum mode, ?_⟩
  have hne : ¬(params.categorical_columns.length + params.numeric_columns.length = 0) :=
    Nat.pos_iff_ne_zero.mp h1
  have hb : (params.use_linear || params.use_mf || params.use_dnn) = true := by
    rcases h2 with h | h | h <;> simp [h]
  rw [model_fn]
  simp only [hne, if_false, hb, not_true, if_neg, if_true]
  rw [hsum Mode.PREDICT]

/-- Witness for C1 at the concrete environment and parameter setting. -/
theorem deepFm_logits_sum_of_components_witness :
    0 < sampleParams.categorical_columns.length + sampleParams.numeric_columns.length ∧
    deepFmLogits sampleEnv Mode.TRAIN sampleParams =
      linear_logit sampleEnv + mf_component_logit sampleEnv sampleParams +
        dnn_component_logit sampleEnv sampleParams Mode.TRAIN := by
  refine ⟨by decide, ?_⟩
  have h := (deepFm_logits_sum_of_components sampleEnv 0 Mode.TRAIN sampleParams
    (by decide) (Or.inl rfl)).1
  simpa [sampleParams] using h

/-- C2: `model_fn` raises `ValueError` exactly when validation fails:
an error is returned iff the categorical and numeric column lists are
both empty or no component among linear, mf, dnn is enabled; every
other parameter setting passes validation without an error. -/
theorem model_fn_error_iff_invalid (env : FrameworkEnv) (labels : ℚ) (mode : Mode)
    (params : Params) :
    (∃ e, model_fn env labels mode params = Except.error e) ↔
      (params.categorical_columns.length + params.numeric_columns.length = 0 ∨
        ¬(params.use_linear ∨ params.use_mf ∨ params.use_dnn)) := by
  rw [model_fn]
  by_cases hc : params.categorical_columns.length + params.numeric_columns.length = 0
  · simp [hc]
  · by_cases hu : params.use_linear ∨ params.use_mf ∨ params.use_dnn
    · have hb : (params.use_linear || params.use_mf || params.use_dnn) = true := by
        rcases hu with h | h | h <;> simp [h]
      cases mode <;> simp [hc, hb, hu]
    · rw [not_or, not_or] at hu
      obtain ⟨hl, hm, hd⟩ := hu
      simp only [Bool.not_eq_true] at hl hm hd
      simp [hc, hl, hm, hd]

/-- C3: for valid parameters `model_fn` returns a mode-appropriate
`EstimatorSpec`: PREDICT carries only predictions (no loss, no train
op, no metric ops) and does not depend on the labels; EVAL carries the
loss and the evaluation metric ops but no train op; TRAIN carries the
loss and a train op. -/
theorem model_fn_mode_shapes (env : FrameworkEnv) (labels : ℚ) (params : Params)
    (h1 : 0 < params.categorical_columns.length + params.numeric_columns.length)
    (h2 : params.use_linear ∨ params.use_mf ∨ params.use_dnn) :
    (∃ s, model_fn env labels Mode.PREDICT params = Except.ok s ∧
       s.predictions.isSome ∧ s.loss = none ∧ s.train_op = none ∧ s.eval_metric_ops = none) ∧
    (∀ labels1 labels2 : ℚ,
       model_fn env labels1 Mode.PREDICT params = model_fn env labels2 Mode.PREDICT params) ∧
    (∃ s, model_fn env labels Mode.EVAL params = Except.ok s ∧
       s.loss.isSome ∧ s.eval_metric_ops.isSome ∧ s.train_op = none) ∧
    (∃ s, model_fn env labels Mode.TRAIN params = Except.ok s ∧
       s.loss.isSome ∧ s.train_op.isSome) := by
  have hne : ¬(params.categorical_columns.length + params.numeric_columns.length = 0) :=
    Nat.pos_iff_ne_zero.mp h1
  have hb : (params.use_linear || params.use_mf || params.use_dnn) = true := by
    rcases h2 with h | h | h <;> simp [h]
  refine ⟨?_, ?_, ?_, ?_⟩
  · rw [model_fn]
    simp only [hne, if_false, hb, not_true, if_neg, if_true]
    exact ⟨_, rfl, rfl, rfl, rfl, rfl⟩
  · intro labels1 labels2
    rw [model_fn, model_fn]
  · rw [model_fn]
    simp only [hne, if_false, hb, not_true, if_neg, if_true]
    exact ⟨_, rfl, rfl, rfl, rfl⟩
  · rw [model_fn]
    simp only [hne, if_false, hb, not_true, if_neg, if_true]
    exact ⟨_, rfl, rfl, rfl⟩

/-- Witness for C3: the concrete parameter setting passes validation,
and the PREDICT result does not depend on the labels. -/
theorem model_fn_mode_shapes_witness :
    (0 < sampleParams.categorical_columns.length + sampleParams.numeric_columns.length) ∧
    model_fn sampleEnv 1 Mode.PREDICT sampleParams =
      model_fn sampleEnv 2 Mode.PREDICT sampleParams :=
  ⟨by decide,
   (model_fn_mode_shapes sampleEnv 1 sampleParams (by decide) (Or.inl rfl)).2.1 1 2⟩

theorem epochLoop_noFail (tc ec : String) (b : Nat) (fuel start : Nat) :
    epochLoop noFailEnv tc ec b start fuel =
      ((List.range fuel).map (· + start)).flatMap (epochBody tc ec b) := by
  induction fuel generalizing start with
  | zero => rfl
  | succ n ih =>
    have hstep : epochLoop noFailEnv tc ec b start (n + 1) =
        TEvent.trainCall start tc true b ::
          TEvent.evalCall start ec tfCsvDatasetShuffleDefault b ::
            TEvent.logEpoch start :: epochLoop noFailEnv tc ec b (start + 1) n := rfl
    rw [hstep, ih (start + 1), List.range_succ_eq_map]
    have hm : ((List.range n).map fun j => j.succ + start) =
        (List.range n).map (· + (start + 1)) := by
      apply List.map_congr_left
      intro j _
      omega
    simp [epochBody, Function.comp_def, hm]

/-- C5: with no framework call raising, each script's `train_main`
performs the model-directory cleanup and estimator construction and
then exactly `num_epochs` iterations, each being one `model.train`
call on the training csv with shuffling, then one `model.evaluate`
call on the test csv without shuffling, then the log of that epoch's
evaluation results. -/
theorem train_main_epoch_loop (args : DeepFmArgs) (largs : LinearArgs) :
    deepFmTrainMainTrace noFailEnv args =
      TEvent.rmtreeDir args.model_dir :: TEvent.estimatorCreate args.model_dir ::
        (List.range args.num_epochs).flatMap
          (epochBody args.train_csv args.test_csv args.batch_size) ∧
    linearTrainMainTrace noFailEnv largs =
      TEvent.rmtreeDir largs.model_dir :: TEvent.estimatorCreate largs.model_dir ::
        (List.range largs.num_epochs).flatMap
          (epochBody largs.train_csv largs.test_csv largs.batch_size) := by
  constructor
  · rw [deepFmTrainMainTrace, epochLoop_noFail]
    simp
  · rw [linearTrainMainTrace, epochLoop_noFail]
    simp

/-- C6: the hybrid CLI exposes the structural toggles and forwards
them into `params` with `use_* = not exclude_*` and the size flags
unchanged, while the linear CLI exposes only paths, model directory,
batch size, epoch count and log path. -/
theorem cli_flags_and_param_forwarding (args : DeepFmArgs) (cols : List String) :
    (deepFmTrainParams args cols).use_linear = !args.exclude_linear ∧
    (deepFmTrainParams args cols).use_mf = !args.exclude_mf ∧
    (deepFmTrainParams args cols).use_dnn = !args.exclude_dnn ∧
    (deepFmTrainParams args cols).embedding_size = args.embedding_size ∧
    (deepFmTrainParams args cols).hidden_units = args.hidden_units ∧
    (deepFmTrainParams args cols).dropout = args.dropout ∧
    "--exclude-linear" ∈ deepFmCliFlags ∧ "--exclude-mf" ∈ deepFmCliFlags ∧
    "--exclude-dnn" ∈ deepFmCliFlags ∧ "--embedding-size" ∈ deepFmCliFlags ∧
    "--hidden-units" ∈ deepFmCliFlags ∧ "--dropout" ∈ deepFmCliFlags ∧
    linearCliFlags = ["--train-csv", "--test-csv", "--model-dir",
      "--batch-size", "--num-epochs", "--log-path"] ∧
    "--exclude-linear" ∉ linearCliFlags ∧ "--exclude-mf" ∉ linearCliFlags ∧
    "--exclude-dnn" ∉ linearCliFlags ∧ "--embedding-size" ∉ linearCliFlags ∧
    "--hidden-units" ∉ linearCliFlags ∧ "--dropout" ∉ linearCliFlags :=
  ⟨rfl, rfl, rfl, rfl, rfl, rfl,
   by decide, by decide, by decide, by decide, by decide, by decide,
   rfl,
   by decide, by decide, by decide, by decide, by decide, by decide⟩

/-- C7: each script's entry point, given an exception from
`train_main`, logs exactly that exception and re-raises it unchanged;
no exception is swallowed, and a normal return is passed through. -/
theorem entry_logs_and_reraises (e : String) (r : Except String Unit) :
    deepFmEntry (Except.error e) = ([e], Except.error e) ∧
    linearEntry (Except.error e) = ([e], Except.error e) ∧
    (deepFmEntry r).2 = r ∧ (linearEntry r).2 = r := by
  refine ⟨rfl, rfl, ?_, ?_⟩ <;> cases r <;> rfl

theorem epochLoop_train_mem (env : FitEnv) (tc ec : String) (b m : Nat)
    (csv : String) (sh : Bool) (bs : Nat) :
    ∀ fuel start, TEvent.trainCall m csv sh bs ∈ epochLoop env tc ec b start fuel →
      start ≤ m ∧ ∀ k, start ≤ k → k < m →
        env.trainFails k = false ∧ env.evalFails k = false := by
  intro fuel
  induction fuel with
  | zero =>
    intro start h
    simp [epochLoop] at h
  | succ n ih =>
    intro start h
    rw [epochLoop] at h
    rcases List.mem_cons.mp h with heq | htail
    · have hm : m = start := by
        injection heq
      subst hm
      exact ⟨Nat.le_refl m, fun k hk1 hk2 => absurd (Nat.lt_of_le_of_lt hk1 hk2) (lt_irrefl m)⟩
    · by_cases h1 : env.trainFails start
      · simp [h1] at htail
      · simp only [h1, Bool.false_eq_true, if_false, ite_false] at htail
        rcases List.mem_cons.mp htail with heq2 | htail2
        · exact absurd heq2 (by simp)
        · by_cases h2 : env.evalFails start
          · simp [h2] at htail2
          · simp only [h2, Bool.false_eq_true, if_false, ite_false] at htail2
            rcases List.mem_cons.mp htail2 with heq3 | htail3
            · exact absurd heq3 (by simp)
            · obtain ⟨hle, hpass⟩ := ih (start + 1) htail3
              refine ⟨by omega, fun k hk1 hk2 => ?_⟩
              rcases Nat.eq_or_lt_of_le hk1 with hk | hk
              · subst hk
                exact ⟨Bool.not_eq_true _ ▸ (by simpa using h1),
                       Bool.not_eq_true _ ▸ (by simpa using h2)⟩
              · exact hpass k hk hk2

theorem epochLoop_eval_mem (env : FitEnv) (tc ec : String) (b m : Nat)
    (csv : String) (sh : Bool) (bs : Nat) :
    ∀ fuel start, TEvent.evalCall m csv sh bs ∈ epochLoop env tc ec b start fuel →
      start ≤ m ∧ ∀ k, start ≤ k → k < m →
        env.trainFails k = false ∧ env.evalFails k = false := by
  intro fuel
  induction fuel with
  | zero =>
    intro start h
    simp [epochLoop] at h
  | succ n ih =>
    intro start h
    rw [epochLoop] at h
    rcases List.mem_cons.mp h with heq | htail
    · exact absurd heq (by simp)
    · by_cases h1 : env.trainFails start
      · simp [h1] at htail
      · simp only [h1, Bool.false_eq_true, if_false, ite_false] at htail
        rcases List.mem_cons.mp htail with heq2 | htail2
        · have hm : m = start := by
            injection heq2
          subst hm
          exact ⟨Nat.le_refl m, fun k hk1 hk2 => absurd (Nat.lt_of_le_of_lt hk1 hk2) (lt_irrefl m)⟩
        · by_cases h2 : env.evalFails start
          · simp [h2] at htail2
          · simp only [h2, Bool.false_eq_true, if_false, ite_false] at htail2
            rcases List.mem_cons.mp htail2 with heq3 | htail3
            · exact absurd heq3 (by simp)
            · obtain ⟨hle, hpass⟩ := ih (start + 1) htail3
              refine ⟨by omega, fun k hk1 hk2 => ?_⟩
              rcases Nat.eq_or_lt_of_le hk1 with hk | hk
              · subst hk
                exact ⟨Bool.not_eq_true _ ▸ (by simpa using h1),
                       Bool.not_eq_true _ ▸ (by simpa using h2)⟩
              · exact hpass k hk hk2

theorem epochLoop_count_train (env : FitEnv) (tc ec : String) (b m : Nat)
    (csv : String) (sh : Bool) (bs : Nat) :
    ∀ fuel start, (epochLoop env tc ec b start fuel).count (TEvent.trainCall m csv sh bs) ≤ 1 := by
  intro fuel
  induction fuel with
  | zero =>
    intro start
    simp [epochLoop]
  | succ n ih =>
    intro start
    rw [epochLoop]
    by_cases h1 : env.trainFails start
    · simp only [h1, if_true, ite_true]
      rw [List.count_singleton]
      split <;> simp
    · simp only [h1, Bool.false_eq_true, if_false, ite_false]
      by_cases h2 : env.evalFails start
      · simp only [h2, if_true, ite_true]
        rw [List.count_cons, List.count_eq_zero.mpr (by simp)]
        split <;> simp
      · simp only [h2, Bool.false_eq_true, if_false, ite_false]
        by_cases hhead : TEvent.trainCall m csv sh bs = TEvent.trainCall start tc true b
        · have hm : m = start := by
            injection hhead
          have hnot : TEvent.trainCall m csv sh bs ∉ epochLoop env tc ec b (start + 1) n := by
            intro hmem
            have := (epochLoop_train_mem env tc ec b m csv sh bs n (start + 1) hmem).1
            omega
          rw [← hhead, List.count_cons_self, List.count_cons_of_ne (by simp),
            List.count_cons_of_ne (by simp), List.count_eq_zero.mpr hnot]
        · rw [List.count_cons_of_ne hhead, List.count_cons_of_ne (by simp),
            List.count_cons_of_ne (by simp)]
          exact ih (start + 1)

theorem epochLoop_count_eval (env : FitEnv) (tc ec : String) (b m : Nat)
    (csv : String) (sh : Bool) (bs : Nat) :
    ∀ fuel start, (epochLoop env tc ec b start fuel).count (TEvent.evalCall m csv sh bs) ≤ 1 := by
  intro fuel
  induction fuel with
  | zero =>
    intro start
    simp [epochLoop]
  | succ n ih =>
    intro start
    rw [epochLoop]
    by_cases h1 : env.trainFails start
    · simp only [h1, if_true, ite_true]
      simp [List.count_singleton]
    · simp only [h1, Bool.false_eq_true, if_false, ite_false]
      rw [List.count_cons_of_ne (by simp)]
      by_cases h2 : env.evalFails start
      · simp only [h2, if_true, ite_true]
        rw [List.count_singleton]
        split <;> simp
      · simp only [h2, Bool.false_eq_true, if_false, ite_false]
        by_cases hhead : TEvent.evalCall m csv sh bs =
            TEvent.evalCall start ec tfCsvDatasetShuffleDefault b
        · have hm : m = start := by
            injection hhead
          have hnot : TEvent.evalCall m csv sh bs ∉ epochLoop env tc ec b (start + 1) n := by
            intro hmem
            have := (epochLoop_eval_mem env tc ec b m csv sh bs n (start + 1) hmem).1
            omega
          rw [← hhead, List.count_cons_self, List.count_cons_of_ne (by simp),
            List.count_eq_zero.mpr hnot]
        · rw [List.count_cons_of_ne hhead, List.count_cons_of_ne (by simp)]
          exact ih (start + 1)

/-- C8: if the train or evaluate call of epoch `n` raises, neither
script's `train_main` makes any train or evaluate call for an epoch
after `n`, and no epoch's train or evaluate call is ever attempted more
than once. -/
theorem no_retry_after_failure (env : FitEnv) (args : DeepFmArgs) (largs : LinearArgs)
    (n m j : Nat) (csv : String) (sh : Bool) (bs : Nat)
    (hfail : env.trainFails n = true ∨ env.evalFails n = true) (hlt : n < m) :
    (TEvent.trainCall m csv sh bs ∉ deepFmTrainMainTrace env args ∧
     TEvent.evalCall m csv sh bs ∉ deepFmTrainMainTrace env args ∧
     TEvent.trainCall m csv sh bs ∉ linearTrainMainTrace env largs ∧
     TEvent.evalCall m csv sh bs ∉ linearTrainMainTrace env largs) ∧
    ((deepFmTrainMainTrace env args).count (TEvent.trainCall j csv sh bs) ≤ 1 ∧
     (deepFmTrainMainTrace env args).count (TEvent.evalCall j csv sh bs) ≤ 1 ∧
     (linearTrainMainTrace env largs).count (TEvent.trainCall j csv sh bs) ≤ 1 ∧
     (linearTrainMainTrace env largs).count (TEvent.evalCall j csv sh bs) ≤ 1) := by
  have hcontra : env.trainFails n = false ∧ env.evalFails n = false → False := by
    rintro ⟨h1, h2⟩
    rcases hfail with h | h
    · rw [h1] at h; exact Bool.false_ne_true h
    · rw [h2] at h; exact Bool.false_ne_true h
  constructor
  · refine ⟨?_, ?_, ?_, ?_⟩ <;> intro hmem
    · rw [deepFmTrainMainTrace] at hmem
      simp only [List.mem_cons] at hmem
      rcases hmem with h | h | h
      · exact absurd h (by simp)
      · exact absurd h (by simp)
      · exact hcontra ((epochLoop_train_mem env _ _ _ m csv sh bs _ 0 h).2 n (Nat.zero_le n) hlt)
    · rw [deepFmTrainMainTrace] at hmem
      simp only [List.mem_cons] at hmem
      rcases hmem with h | h | h
      · exact absurd h (by simp)
      · exact absurd h (by simp)
      · exact hcontra ((epochLoop_eval_mem env _ _ _ m csv sh bs _ 0 h).2 n (Nat.zero_le n) hlt)
    · rw [linearTrainMainTrace] at hmem
      simp only [List.mem_cons] at hmem
      rcases hmem with h | h | h
      · exact absurd h (by simp)
      · exact absurd h (by simp)
      · exact hcontra ((epochLoop_train_mem env _ _ _ m csv sh bs _ 0 h).2 n (Nat.zero_le n) hlt)
    · rw [linearTrainMainTrace] at hmem
      simp only [List.mem_cons] at hmem
      rcases hmem with h | h | h
      · exact absurd h (by simp)
      · exact absurd h (by simp)
      · exact hcontra ((epochLoop_eval_mem env _ _ _ m csv sh bs _ 0 h).2 n (Nat.zero_le n) hlt)
  · refine ⟨?_, ?_, ?_, ?_⟩
    · rw [deepFmTrainMainTrace, List.count_cons, List.count_cons]
      simpa using epochLoop_count_train env _ _ _ j csv sh bs _ 0
    · rw [deepFmTrainMainTrace, List.count_cons, List.count_cons]
      simpa using epochLoop_count_eval env _ _ _ j csv sh bs _ 0
    · rw [linearTrainMainTrace, List.count_cons, List.count_cons]
      simpa using epochLoop_count_train env _ _ _ j csv sh bs _ 0
    · rw [linearTrainMainTrace, List.count_cons, List.count_cons]
      simpa using epochLoop_count_eval env _ _ _ j csv sh bs _ 0

/-- A run description in which the evaluate call of epoch 0 raises. -/
def sampleFailEnv : FitEnv :=
  { trainFails := fun _ => false, evalFails := fun n => n == 0 }

/-- Concrete hybrid-script arguments with the argparse defaults. -/
def sampleDeepFmArgs : DeepFmArgs :=
  { train_csv := "data/train.csv", test_csv := "data/test.csv" }

/-- Concrete linear-script arguments with the argparse defaults. -/
def sampleLinearArgs : LinearArgs :=
  { train_csv := "data/train.csv", test_csv := "data/test.csv" }

/-- Witness for C8: with the evaluate call of epoch 0 raising, epoch 1
is never trained. -/
theorem no_retry_after_failure_witness :
    sampleFailEnv.evalFails 0 = true ∧ 0 < 1 ∧
    TEvent.trainCall 1 "data/train.csv" true 32 ∉
      deepFmTrainMainTrace sampleFailEnv sampleDeepFmArgs :=
  ⟨rfl, by decide,
   ((no_retry_after_failure sampleFailEnv sampleDeepFmArgs sampleLinearArgs 0 1 0
      "data/train.csv" true 32 (Or.inr rfl) (by decide)).1).1⟩

/-- C9: each `train_main` deletes the model checkpoint directory first,
before constructing the estimator and before any train or evaluate
call; the deletion removes every filesystem path at or below the model
directory (so no checkpoint of a previous run survives into the new
estimator) and leaves every path outside the model directory
untouched. -/
theorem rmtree_first_and_frame (env : FitEnv) (args : DeepFmArgs) (largs : LinearArgs)
    (fs : FS) (dir p q : List String)
    (hin : dir.isPrefixOf p = true) (hout : ¬dir.isPrefixOf q = true) :
    (deepFmTrainMainTrace env args).head? = some (TEvent.rmtreeDir args.model_dir) ∧
    (deepFmTrainMainTrace env args).tail.head? =
      some (TEvent.estimatorCreate args.model_dir) ∧
    (linearTrainMainTrace env largs).head? = some (TEvent.rmtreeDir largs.model_dir) ∧
    (linearTrainMainTrace env largs).tail.head? =
      some (TEvent.estimatorCreate largs.model_dir) ∧
    rmtreeFS dir fs p = false ∧
    rmtreeFS dir fs q = fs q := by
  refine ⟨rfl, rfl, rfl, rfl, ?_, ?_⟩
  · simp [rmtreeFS, hin]
  · simp [rmtreeFS, hout]

/-- Witness for C9 at a concrete directory and filesystem. -/
theorem rmtree_first_and_frame_witness :
    (["checkpoints", "deep_fm"].isPrefixOf
      ["checkpoints", "deep_fm", "model.ckpt"] = true) ∧
    ¬(["checkpoints", "deep_fm"].isPrefixOf ["data", "train.csv"] = true) ∧
    rmtreeFS ["checkpoints", "deep_fm"] (fun _ => true)
      ["checkpoints", "deep_fm", "model.ckpt"] = false ∧
    rmtreeFS ["checkpoints", "deep_fm"] (fun _ => true) ["data", "train.csv"] = true := by
  have h := rmtree_first_and_frame noFailEnv sampleDeepFmArgs sampleLinearArgs
    (fun _ => true) ["checkpoints", "deep_fm"] ["checkpoints", "deep_fm", "model.ckpt"]
    ["data", "train.csv"] (by decide) (by decide)
  exact ⟨by decide, by decide, h.2.2.2.2.1, h.2.2.2.2.2⟩

theorem dnn_hidden_eq_variants (env : FrameworkEnv) (dropout : ℚ) (mode : Mode) :
    ∀ layers net, dnn_hidden env dropout mode layers net =
      if 0 < dropout ∧ mode = Mode.TRAIN then dnn_hidden_all_dropout env dropout layers net
      else dnn_hidden_no_dropout env layers net := by
  intro layers
  induction layers with
  | nil =>
    intro net
    split <;> rfl
  | cons hd rest ih =>
    obtain ⟨i, h⟩ := hd
    intro net
    by_cases hc : 0 < dropout ∧ mode = Mode.TRAIN
    · rw [if_pos hc]
      have hstep : dnn_hidden env dropout mode ((i, h) :: rest) net =
          dnn_hidden env dropout mode rest
            (env.dropout_layer i dropout (env.dense i h net)) := by
        simp only [dnn_hidden]
        rw [if_pos hc]
      rw [hstep, ih, if_pos hc]
      rfl
    · rw [if_neg hc]
      have hstep : dnn_hidden env dropout mode ((i, h) :: rest) net =
          dnn_hidden env dropout mode rest (env.dense i h net) := by
        simp only [dnn_hidden]
        rw [if_neg hc]
      rw [hstep, ih, if_neg hc]
      rfl

/-- C10: a dropout layer follows a hidden layer iff the dropout rate is
positive and the mode is TRAIN; in EVAL and PREDICT modes, for every
dropout rate, the hidden stack and the dnn logit are computed without
any dropout layer, and likewise for non-positive rates. -/
theorem dropout_iff_positive_and_train (env : FrameworkEnv) (dropout : ℚ) (mode : Mode)
    (layers : List (Nat × Nat)) (net : List ℚ) (params : Params) (il : List ℚ) :
    dnn_hidden env dropout mode layers net =
      (if 0 < dropout ∧ mode = Mode.TRAIN then dnn_hidden_all_dropout env dropout layers net
       else dnn_hidden_no_dropout env layers net) ∧
    (mode = Mode.EVAL ∨ mode = Mode.PREDICT →
      dnn_hidden env dropout mode layers net = dnn_hidden_no_dropout env layers net ∧
      dnn_logit env params mode il =
        env.dense_logit (dnn_hidden_no_dropout env params.hidden_units.enum il)) ∧
    (dropout ≤ 0 →
      dnn_hidden env dropout mode layers net = dnn_hidden_no_dropout env layers net) := by
  refine ⟨dnn_hidden_eq_variants env dropout mode layers net, ?_, ?_⟩
  · rintro (hm | hm) <;> subst hm <;> constructor
    · rw [dnn_hidden_eq_variants]
      simp
    · rw [dnn_logit, dnn_hidden_eq_variants]
      simp
    · rw [dnn_hidden_eq_variants]
      simp
    · rw [dnn_logit, dnn_hidden_eq_variants]
      simp
  · intro hd
    rw [dnn_hidden_eq_variants, if_neg]
    rintro ⟨h1, -⟩
    exact absurd hd (not_le.mpr h1)

/-- Witness for C10: in EVAL mode with a positive dropout rate the
hidden stack equals the dropout-free stack. -/
theorem dropout_iff_positive_and_train_witness :
    (Mode.EVAL = Mode.EVAL ∨ Mode.EVAL = Mode.PREDICT) ∧
    dnn_hidden sampleEnv (1 / 10) Mode.EVAL [(0, 4)] [1, 2] =
      dnn_hidden_no_dropout sampleEnv [(0, 4)] [1, 2] :=
  ⟨Or.inl rfl,
   ((dropout_iff_positive_and_train sampleEnv (1 / 10) Mode.EVAL [(0, 4)] [1, 2]
      sampleParams [1, 2]).2.1 (Or.inl rfl)).1⟩

end WideDeep
